import Mathlib

/-!
Shallow embedding of `src/main.py` (String Analyzer API).

The Python module is embedded function by function:
* `analyze_string` — the property computer (length, palindrome flag, unique
  characters, word count, content hash, character frequency map);
* `apply_filters` — the filter engine over a list of stored records;
* `parse_natural_language_query` — the phrase interpreter, including a
  faithful model of the five `re.search` patterns it uses (leftmost match,
  greedy digit runs, backtracking over the optional groups of the
  containment pattern);
* the endpoint bodies `list_strings_with_filters`,
  `filter_by_natural_language` and `create_string`, with the in-memory
  `string_store` dict passed explicitly as an association list and
  `HTTPException`s modelled as an error value carrying status and detail.

Strings are handled at the level of their character lists; Python's
`str.lower()` is modelled by `Char.toLower` on each character (an ASCII
case model — all phrases and examples in play are ASCII).  Python `dict`
equality ignores entry order, so the frequency map is modelled as the
list of distinct characters paired with their counts.
-/

deriving instance DecidableEq for Except

namespace StringAnalyzer

/-- Python `str.lower()` on a string, viewed as its list of characters
(ASCII case-mapping model). -/
def lowerList (s : String) : List Char := s.data.map Char.toLower

/-- Python's substring test `needle in hay` on character lists: `needle`
occurs contiguously inside `hay` (the empty needle always occurs). -/
def infixCheck (needle : List Char) : List Char → Bool
  | [] => needle.isEmpty
  | c :: rest => needle.isPrefixOf (c :: rest) || infixCheck needle rest

/-- Substring test on strings, modelling Python `needle in hay`. -/
def isSubstr (needle hay : String) : Bool := infixCheck needle.data hay.data

/-- Value of a non-empty run of decimal digits, modelling Python
`int(match.group(1))`. -/
def digitsVal (ds : List Char) : Nat := ds.foldl (fun a c => a * 10 + (c.toNat - 48)) 0

/-- Attempt to match a pattern `key(\d+)` (and, when `requireChars` is
true, the further literal `" character"` as in `key(\d+) characters?`)
at the head of `l`; the digit run is greedy, exactly as `\d+` is. -/
def matchNumAt (key : List Char) (requireChars : Bool) (l : List Char) : Option Nat :=
  if key.isPrefixOf l then
    let rest := l.drop key.length
    let ds := rest.takeWhile Char.isDigit
    if ds.isEmpty then none
    else if requireChars then
      if (" character".data).isPrefixOf (rest.drop ds.length) then some (digitsVal ds) else none
    else some (digitsVal ds)
  else none

/-- Model of `re.search` for the numeric patterns of the interpreter:
the match at the leftmost possible position wins, as in Python. -/
def searchNum (key : List Char) (requireChars : Bool) : List Char → Option Nat
  | [] => none
  | c :: rest =>
    match matchNumAt key requireChars (c :: rest) with
    | some n => some n
    | none => searchNum key requireChars rest

/-- Lower-case ASCII letter test, the character class `[a-z]`. -/
def isLowerAlpha (c : Char) : Bool := decide ('a' ≤ c) && decide (c ≤ 'z')

/-- Quote character test, the character class `['\"]` (codes 39 and 34). -/
def isQuoteCh (c : Char) : Bool := decide (c.toNat = 39) || decide (c.toNat = 34)

/-- Tail of the containment pattern: `['\"]?([a-z])['\"]?` with the
backtracking Python applies — a greedy optional opening quote is given
back when no letter follows it.  Returns the captured letter. -/
def tailCapture : List Char → Option Char
  | [] => none
  | c :: rest =>
    if isQuoteCh c then
      match rest with
      | c2 :: _ => if isLowerAlpha c2 then some c2 else none
      | [] => none
    else if isLowerAlpha c then some c else none

/-- The optional group `(?:letter |character )?` of the containment
pattern, backtracking to the empty alternative when the continuation
fails. -/
def markerCapture (l : List Char) : Option Char :=
  if ("letter ".data).isPrefixOf l then
    match tailCapture (l.drop 7) with
    | some c => some c
    | none => tailCapture l
  else if ("character ".data).isPrefixOf l then
    match tailCapture (l.drop 10) with
    | some c => some c
    | none => tailCapture l
  else tailCapture l

/-- The optional group `(?:the )?` of the containment pattern, again
with backtracking to the empty alternative. -/
def theCapture (l : List Char) : Option Char :=
  if ("the ".data).isPrefixOf l then
    match markerCapture (l.drop 4) with
    | some c => some c
    | none => markerCapture l
  else markerCapture l

/-- The part of the containment pattern after the literal `contain`:
`(?:s|ing)? ` — the three alternatives start with distinct characters,
so the group matches `"s "`, `"ing "` or `" "` deterministically. -/
def afterContain (l : List Char) : Option Char :=
  if ("s ".data).isPrefixOf l then theCapture (l.drop 2)
  else if ("ing ".data).isPrefixOf l then theCapture (l.drop 4)
  else if (" ".data).isPrefixOf l then theCapture (l.drop 1)
  else none

/-- One attempted match of the full containment pattern
`contain(?:s|ing)? (?:the )?(?:letter |character )?['\"]?([a-z])['\"]?`
anchored at the head of `l`. -/
def containsCaptureAt (l : List Char) : Option Char :=
  if ("contain".data).isPrefixOf l then afterContain (l.drop 7) else none

/-- Model of `re.search` for the containment pattern: leftmost matching
position wins. -/
def containsSearch : List Char → Option Char
  | [] => none
  | c :: rest =>
    match containsCaptureAt (c :: rest) with
    | some ch => some ch
    | none => containsSearch rest

/-- The filter dictionary built by the interpreter and by the structured
endpoint: every predicate optional, absent meaning "no constraint".
Python dict equality ignores insertion order, so a structure is a
faithful model; `min_length`/`max_length` are `Int` because
`"shorter than 0"` produces `-1` in the Python code. -/
structure Filters where
  is_palindrome : Option Bool := none
  word_count : Option Int := none
  min_length : Option Int := none
  max_length : Option Int := none
  contains_character : Option String := none
deriving DecidableEq, Repr

/-- Rule 1 of `parse_natural_language_query`: substring `"palindrom"`
anywhere sets `is_palindrome = True`. -/
def palinStage (ql : List Char) (f : Filters) : Filters :=
  if infixCheck ("palindrom".data) ql then { f with is_palindrome := some true } else f

/-- Rule 2: word-count phrases, first match wins
(`single word`/`one word` → 1, else `two word` → 2, else `three word` → 3). -/
def wordStage (ql : List Char) (f : Filters) : Filters :=
  if infixCheck ("single word".data) ql || infixCheck ("one word".data) ql then
    { f with word_count := some 1 }
  else if infixCheck ("two word".data) ql then { f with word_count := some 2 }
  else if infixCheck ("three word".data) ql then { f with word_count := some 3 }
  else f

/-- Rule 3: the five numeric length patterns, each independently
attempted in source order; `exactly` is evaluated last and overwrites
both bounds. -/
def lengthStage (ql : List Char) (f : Filters) : Filters :=
  let f := match searchNum ("longer than ".data) false ql with
    | some n => { f with min_length := some ((n : Int) + 1) }
    | none => f
  let f := match searchNum ("shorter than ".data) false ql with
    | some n => { f with max_length := some ((n : Int) - 1) }
    | none => f
  let f := match searchNum ("at least ".data) true ql with
    | some n => { f with min_length := some (n : Int) }
    | none => f
  let f := match searchNum ("at most ".data) true ql with
    | some n => { f with max_length := some (n : Int) }
    | none => f
  match searchNum ("exactly ".data) true ql with
  | some n => { f with min_length := some (n : Int), max_length := some (n : Int) }
  | none => f

/-- Rules 4 and 5: the containment regular expression, then the literal
`"first vowel"` special case, evaluated after it (later write wins). -/
def containStage (ql : List Char) (f : Filters) : Filters :=
  let f := match containsSearch ql with
    | some c => { f with contains_character := some (String.singleton c) }
    | none => f
  if infixCheck ("first vowel".data) ql then { f with contains_character := some "a" } else f

/-- The rule phase of `parse_natural_language_query`: the filters dict
as it stands after all five rules ran on the lower-cased query. -/
def parse_filters_build (query : String) : Filters :=
  let ql := lowerList query
  containStage ql (lengthStage ql (wordStage ql (palinStage ql {})))

/-- The interpreter's post-check condition: both bounds present and
`min_length > max_length`. -/
def conflictB (f : Filters) : Bool :=
  match f.min_length, f.max_length with
  | some a, some b => decide (b < a)
  | _, _ => false

/-- Message of the `ValueError` raised on contradictory bounds. -/
def conflictMsg : String := "Conflicting filters: min_length cannot be greater than max_length"

/-- Message of the `ValueError` raised when no rule recognized anything. -/
def noMatchMsg : String := "Unable to parse natural language query"

/-- The phrase interpreter `parse_natural_language_query`: run the five
rules, then raise on contradictory bounds, then raise if the filters
dict is empty, else return it.  A raised `ValueError` is modelled as
`.error` carrying the exception's message. -/
def parse_natural_language_query (query : String) : Except String Filters :=
  let filters := parse_filters_build query
  if conflictB filters then .error conflictMsg
  else if filters = ({} : Filters) then .error noMatchMsg
  else .ok filters

/-- Property record computed by `analyze_string` (field names as in the
Python `StringProperties` model). -/
structure StringProperties where
  length : Nat
  is_palindrome : Bool
  unique_characters : Nat
  word_count : Nat
  sha256_hash : String
  character_frequency_map : List (Char × Nat)
deriving DecidableEq, Repr

/-- Python `len(value.split())`: the number of maximal non-whitespace
runs of the character list. -/
def wordCount (l : List Char) : Nat :=
  (l.foldl
    (fun (st : Nat × Bool) c =>
      if c.isWhitespace then (st.1, false)
      else if st.2 then (st.1, true) else (st.1 + 1, true))
    (0, false)).1

/-- Modelled from the spec: the `content_hash` is "a deterministic
fixed-length digest of the raw string bytes", computed in the source by
`hashlib.sha256(value.encode()).hexdigest()` — a library routine outside
this repository's sources.  It is modelled as an explicit function
parameter `sha256hex`, so every theorem below holds for an arbitrary
digest function; a digest is deterministic simply by being a function. -/
def analyze_string (sha256hex : String → String) (value : String) : StringProperties :=
  let normalized := value.data.map Char.toLower
  { length := value.data.length
  , is_palindrome := normalized == normalized.reverse
  , unique_characters := value.data.dedup.length
  , word_count := wordCount value.data
  , sha256_hash := sha256hex value
  , character_frequency_map := value.data.dedup.map (fun c => (c, value.data.count c)) }

/-- A stored record: `{id, value, properties, created_at}`. -/
structure StoredRecord where
  id : String
  value : String
  properties : StringProperties
  created_at : String
deriving DecidableEq, Repr

/-- The filter engine `apply_filters`: five successive list
comprehensions, one per present predicate.  The containment predicate is
guarded by Python truthiness (`if filters.get("contains_character"):`),
so an empty string behaves like an absent predicate. -/
def apply_filters (strings : List StoredRecord) (filters : Filters) : List StoredRecord :=
  let filtered := strings
  let filtered := match filters.is_palindrome with
    | some b => filtered.filter (fun s => s.properties.is_palindrome == b)
    | none => filtered
  let filtered := match filters.min_length with
    | some n => filtered.filter (fun s => decide (n ≤ (s.properties.length : Int)))
    | none => filtered
  let filtered := match filters.max_length with
    | some n => filtered.filter (fun s => decide ((s.properties.length : Int) ≤ n))
    | none => filtered
  let filtered := match filters.word_count with
    | some n => filtered.filter (fun s => (s.properties.word_count : Int) == n)
    | none => filtered
  match filters.contains_character with
  | some c => if c.isEmpty then filtered else filtered.filter (fun s => infixCheck c.data s.value.data)
  | none => filtered

/-- Record predicate written from the spec's words (section 4.2): "each
present predicate in the spec must independently hold for a record to
pass (logical AND)": palindrome flag equality, `length ≥ min_length`,
`length ≤ max_length`, exact word count, and the required character
occurring in the raw value; absent predicates impose no constraint. -/
def spec_matches (filters : Filters) (s : StoredRecord) : Bool :=
  (match filters.is_palindrome with
    | some b => s.properties.is_palindrome == b
    | none => true) &&
  (match filters.min_length with
    | some n => decide (n ≤ (s.properties.length : Int))
    | none => true) &&
  (match filters.max_length with
    | some n => decide ((s.properties.length : Int) ≤ n)
    | none => true) &&
  (match filters.word_count with
    | some n => (s.properties.word_count : Int) == n
    | none => true) &&
  (match filters.contains_character with
    | some c => infixCheck c.data s.value.data
    | none => true)

/-- An `HTTPException`, modelled by its status code and detail string. -/
structure HttpError where
  status : Nat
  detail : String
deriving DecidableEq, Repr

/-- Response of `GET /strings` (the structured list endpoint). -/
structure FilteredResponse where
  data : List StoredRecord
  count : Nat
  filters_applied : Filters
deriving DecidableEq, Repr

/-- Response of `GET /strings/filter-by-natural-language`. -/
structure NaturalLanguageResponse where
  data : List StoredRecord
  count : Nat
  original : String
  parsed_filters : Filters
deriving DecidableEq, Repr

/-- The structured list endpoint `list_strings_with_filters`: validate
`min_length ≤ max_length` when both are supplied (raising 400 Bad
Request otherwise), build the filters dict from the present parameters,
and apply the filter engine to the store's values in insertion order. -/
def list_strings_with_filters (is_palindrome : Option Bool)
    (min_length max_length word_count : Option Int) (contains_character : Option String)
    (store : List (String × StoredRecord)) : Except HttpError FilteredResponse :=
  if (match min_length, max_length with
      | some a, some b => decide (b < a)
      | _, _ => false) then
    .error ⟨400, "min_length cannot be greater than max_length"⟩
  else
    let filters : Filters :=
      ⟨is_palindrome, word_count, min_length, max_length, contains_character⟩
    let all_strings := store.map Prod.snd
    let filtered := apply_filters all_strings filters
    .ok ⟨filtered, filtered.length, filters⟩

/-- The natural-language endpoint `filter_by_natural_language`: parse the
query; a `ValueError` whose lower-cased message contains `"conflicting"`
becomes 422 Unprocessable Entity, any other becomes 400 Bad Request with
the message wrapped in an `Unable to parse ...` detail; on success the
filter engine runs over the store's values. -/
def filter_by_natural_language (store : List (String × StoredRecord)) (query : String) :
    Except HttpError NaturalLanguageResponse :=
  match parse_natural_language_query query with
  | .error e =>
    if infixCheck ("conflicting".data) (e.data.map Char.toLower) then
      .error ⟨422, e⟩
    else
      .error ⟨400, "Unable to parse natural language query: " ++ e⟩
  | .ok filters =>
    let all_strings := store.map Prod.snd
    let filtered := apply_filters all_strings filters
    .ok ⟨filtered, filtered.length, query, filters⟩

/-- The stored record built by a successful `create_string` (its
`id` is the content hash of the value). -/
def mkStored (sha256hex : String → String) (now : String) (value : String) : StoredRecord :=
  ⟨(analyze_string sha256hex value).sha256_hash, value, analyze_string sha256hex value, now⟩

/-- `POST /strings` (`create_string`): analyze the value, use its hash as
identity, raise 409 Conflict when the hash is already a key of the store
(leaving the store untouched), otherwise append the new record under
that key.  The result pairs the outcome with the store after the call;
`now` stands for the `datetime.utcnow()` timestamp. -/
def create_string (sha256hex : String → String) (now : String)
    (store : List (String × StoredRecord)) (value : String) :
    Except HttpError StoredRecord × List (String × StoredRecord) :=
  let properties := analyze_string sha256hex value
  let string_id := properties.sha256_hash
  if (store.map Prod.fst).contains string_id then
    (.error ⟨409, "String already exists in the system"⟩, store)
  else
    let string_data : StoredRecord := ⟨string_id, value, properties, now⟩
    (.ok string_data, store ++ [(string_id, string_data)])

/-! Helper lemmas shared by the claim theorems. -/

/-- The empty needle is a substring of everything (Python `"" in s`). -/
theorem infixCheck_nil_needle (v : List Char) : infixCheck [] v = true := by
  cases v <;> rfl

/-- An empty string has an empty character list. -/
theorem isEmpty_data_nil (c : String) (h : c.isEmpty = true) : c.data = [] := by
  cases c with
  | mk m => cases m with
    | nil => rfl
    | cons a t =>
      exfalso
      simp [String.isEmpty] at h
      have h2 : String.utf8Len t + a.utf8Size = 0 := congrArg String.Pos.byteIdx h
      have h3 := Char.utf8Size_pos a
      omega

/-- Rules 4 and 5 never touch the `min_length` field. -/
theorem containStage_min_length (ql : List Char) (f : Filters) :
    (containStage ql f).min_length = f.min_length := by
  unfold containStage
  cases h : containsSearch ql <;> simp only [h] <;> split <;> rfl

/-- Rules 4 and 5 never touch the `max_length` field. -/
theorem containStage_max_length (ql : List Char) (f : Filters) :
    (containStage ql f).max_length = f.max_length := by
  unfold containStage
  cases h : containsSearch ql <;> simp only [h] <;> split <;> rfl

/-- A successful parse returns exactly the filters dict built by the
rule phase. -/
theorem parse_ok_eq_build (q : String) (f : Filters)
    (h : parse_natural_language_query q = .ok f) : f = parse_filters_build q := by
  unfold parse_natural_language_query at h
  by_cases hb : conflictB (parse_filters_build q) = true
  · simp [hb] at h
  · have hb' : conflictB (parse_filters_build q) = false := by simpa using hb
    simp only [hb', Bool.false_eq_true, if_false] at h
    by_cases he : parse_filters_build q = ({} : Filters)
    · rw [if_pos he] at h; cases h
    · rw [if_neg he] at h
      exact (Except.ok.inj h).symm

/-! The claim theorems. -/

/-- C1 (counterexample): the claim says the structured list operation
fails with a `ConflictError` of the *unprocessable* class (HTTP 422)
when `min_length > max_length`; the code raises 400 Bad Request on that
path, not 422. -/
theorem C1_counterexample :
    list_strings_with_filters none (some 10) (some 5) none none [] =
      .error ⟨400, "min_length cannot be greater than max_length"⟩ ∧
    (400 : Nat) ≠ 422 := ⟨rfl, by decide⟩

/-- C1 (amended): for every call to the structured list operation in
which both `min_length` and `max_length` are supplied and
`min_length > max_length`, the operation fails with a client error of
the bad-request class (HTTP 400) before any filtering executes — the
result is the same error for every store state — and returns no
records. -/
theorem C1_amended (ip : Option Bool) (a b : Int) (wc : Option Int) (cc : Option String)
    (store : List (String × StoredRecord)) (h : b < a) :
    list_strings_with_filters ip (some a) (some b) wc cc store =
      .error ⟨400, "min_length cannot be greater than max_length"⟩ := by
  unfold list_strings_with_filters
  simp [h]

/-- C1 (witness): the amended theorem applied at
`min_length = 10, max_length = 5` over the empty store. -/
theorem C1_amended_witness :
    (5 : Int) < 10 ∧
    list_strings_with_filters (some true) (some 10) (some 5) none none [] =
      .error ⟨400, "min_length cannot be greater than max_length"⟩ :=
  ⟨by decide, C1_amended (some true) 10 5 none none [] (by decide)⟩

/-- C2: the interpreter fails with `NoMatchError` (the
`"Unable to parse natural language query"` `ValueError`) exactly when
the rule phase set no predicate at all, fails with `ConflictError` (the
`"Conflicting filters: ..."` `ValueError`) exactly when the rules left
both length bounds set with `min_length > max_length`; `"banana"` hits
the former, `"longer than 20 and shorter than 5"` the latter (bounds
21 > 4); and the natural-language endpoint surfaces the two as distinct
categories — 400 Bad Request versus 422 Unprocessable Entity. -/
theorem C2_error_taxonomy (q : String) :
    (parse_natural_language_query q = .error noMatchMsg ↔
      parse_filters_build q = ({} : Filters)) ∧
    (parse_natural_language_query q = .error conflictMsg ↔
      conflictB (parse_filters_build q) = true) ∧
    parse_natural_language_query "banana" = .error noMatchMsg ∧
    parse_natural_language_query "longer than 20 and shorter than 5" = .error conflictMsg ∧
    (parse_filters_build "longer than 20 and shorter than 5").min_length = some 21 ∧
    (parse_filters_build "longer than 20 and shorter than 5").max_length = some 4 ∧
    (∀ store, filter_by_natural_language store "banana" =
      .error ⟨400, "Unable to parse natural language query: " ++ noMatchMsg⟩) ∧
    (∀ store, filter_by_natural_language store "longer than 20 and shorter than 5" =
      .error ⟨422, conflictMsg⟩) ∧
    (422 : Nat) ≠ 400 := by
  have hmsg : noMatchMsg ≠ conflictMsg := by decide
  refine ⟨?_, ?_, rfl, rfl, rfl, rfl, fun _ => rfl, fun _ => rfl, by decide⟩ <;>
    unfold parse_natural_language_query
  · by_cases hb : conflictB (parse_filters_build q) = true
    · simp only [hb, if_true]
      constructor
      · intro h
        exact absurd (Except.error.inj h).symm hmsg
      · intro h
        rw [h] at hb
        exact absurd hb (by decide)
    · have hb' : conflictB (parse_filters_build q) = false := by simpa using hb
      simp only [hb', Bool.false_eq_true, if_false]
      by_cases he : parse_filters_build q = ({} : Filters)
      · rw [if_pos he]
        simp [he]
      · rw [if_neg he]
        constructor
        · intro h; cases h
        · intro h; exact absurd h he
  · by_cases hb : conflictB (parse_filters_build q) = true
    · simp [hb]
    · have hb' : conflictB (parse_filters_build q) = false := by simpa using hb
      simp only [hb', Bool.false_eq_true, if_false]
      by_cases he : parse_filters_build q = ({} : Filters)
      · rw [if_pos he]
        constructor
        · intro h
          exact absurd (Except.error.inj h) hmsg
        · intro h
          exact h.elim
      · rw [if_neg he]
        constructor
        · intro h; cases h
        · intro h; exact h.elim

/-- C3: whenever the `exactly (\d+) characters?` pattern matches the
lower-cased phrase with number `n`, the interpreter sets both
`min_length = n` and `max_length = n` — overwriting any length bound
set by the earlier `longer than`/`shorter than`/`at least`/`at most`
rules, since the `exactly` assignment is evaluated last — and then
always succeeds (the bounds cannot conflict with each other);
`"exactly 7 characters"` yields `{min_length: 7, max_length: 7}`. -/
theorem C3_exactly (q : String) (n : Nat)
    (h : searchNum ("exactly ".data) true (lowerList q) = some n) :
    (parse_filters_build q).min_length = some (n : Int) ∧
    (parse_filters_build q).max_length = some (n : Int) ∧
    parse_natural_language_query q = .ok (parse_filters_build q) ∧
    parse_natural_language_query "exactly 7 characters" =
      .ok ⟨none, none, some 7, some 7, none⟩ := by
  have hmin : (parse_filters_build q).min_length = some (n : Int) := by
    unfold parse_filters_build
    rw [containStage_min_length]
    unfold lengthStage
    rw [h]
  have hmax : (parse_filters_build q).max_length = some (n : Int) := by
    unfold parse_filters_build
    rw [containStage_max_length]
    unfold lengthStage
    rw [h]
  have hb : conflictB (parse_filters_build q) = false := by
    unfold conflictB
    rw [hmin, hmax]
    simp
  have hne : parse_filters_build q ≠ ({} : Filters) := by
    intro he
    rw [he] at hmin
    exact Option.noConfusion hmin
  refine ⟨hmin, hmax, ?_, rfl⟩
  unfold parse_natural_language_query
  simp only [hb, Bool.false_eq_true, if_false]
  rw [if_neg hne]

/-- C3 (witness): the theorem applied to `"exactly 2 characters"`. -/
theorem C3_exactly_witness :
    searchNum ("exactly ".data) true (lowerList "exactly 2 characters") = some 2 ∧
    (parse_filters_build "exactly 2 characters").min_length = some 2 ∧
    (parse_filters_build "exactly 2 characters").max_length = some 2 :=
  ⟨rfl, (C3_exactly "exactly 2 characters" 2 rfl).1,
    (C3_exactly "exactly 2 characters" 2 rfl).2.1⟩

/-- C4: when `longer than N` matches the lower-cased phrase and no
later-evaluated rule writes `min_length` (`at least`, `exactly`), the
interpreter sets `min_length = N + 1`; symmetrically, when
`shorter than N` matches and no later rule writes `max_length`
(`at most`, `exactly`), it sets `max_length = N - 1` — strict bounds;
`"strings longer than 10 characters"` yields `{min_length: 11}` and
`"strings shorter than 5 characters"` yields `{max_length: 4}`. -/
theorem C4_strict_bounds (q : String) :
    (∀ n : Nat,
      searchNum ("longer than ".data) false (lowerList q) = some n →
      searchNum ("at least ".data) true (lowerList q) = none →
      searchNum ("exactly ".data) true (lowerList q) = none →
      (parse_filters_build q).min_length = some ((n : Int) + 1)) ∧
    (∀ n : Nat,
      searchNum ("shorter than ".data) false (lowerList q) = some n →
      searchNum ("at most ".data) true (lowerList q) = none →
      searchNum ("exactly ".data) true (lowerList q) = none →
      (parse_filters_build q).max_length = some ((n : Int) - 1)) ∧
    parse_natural_language_query "strings longer than 10 characters" =
      .ok ⟨none, none, some 11, none, none⟩ ∧
    parse_natural_language_query "strings shorter than 5 characters" =
      .ok ⟨none, none, none, some 4, none⟩ := by
  refine ⟨?_, ?_, rfl, rfl⟩
  · intro n h1 h2 h3
    unfold parse_filters_build
    rw [containStage_min_length]
    unfold lengthStage
    rw [h1, h2, h3]
    cases hs : searchNum ("shorter than ".data) false (lowerList q) <;>
      cases ha : searchNum ("at most ".data) true (lowerList q) <;> rfl
  · intro n h1 h2 h3
    unfold parse_filters_build
    rw [containStage_max_length]
    unfold lengthStage
    rw [h1, h2, h3]
    cases hl : searchNum ("longer than ".data) false (lowerList q) <;>
      cases ha : searchNum ("at least ".data) true (lowerList q) <;> rfl

/-- C4 (witness): the theorem applied to `"longer than 3"` and
`"shorter than 9"`. -/
theorem C4_strict_bounds_witness :
    (parse_filters_build "longer than 3").min_length = some ((3 : Int) + 1) ∧
    (parse_filters_build "shorter than 9").max_length = some ((9 : Int) - 1) :=
  ⟨(C4_strict_bounds "longer than 3").1 3 rfl rfl rfl,
    (C4_strict_bounds "shorter than 9").2.1 9 rfl rfl rfl⟩

/-- C5: every phrase containing `"first vowel"` (after lower-casing)
gets `contains_character = "a"`, whatever letter the rule-4 regular
expression extracted, because rule 5 runs after rule 4 and overwrites
the field; `"palindromic strings that contain the first vowel"` yields
`{is_palindrome: true, contains_character: "a"}` even though rule 4
had extracted `'f'` from `"the first vowel"`. -/
theorem C5_first_vowel (q : String)
    (h : infixCheck ("first vowel".data) (lowerList q) = true) :
    (parse_filters_build q).contains_character = some "a" ∧
    (∀ f, parse_natural_language_query q = .ok f → f.contains_character = some "a") ∧
    parse_natural_language_query "palindromic strings that contain the first vowel" =
      .ok ⟨some true, none, none, none, some "a"⟩ ∧
    containsSearch (lowerList "palindromic strings that contain the first vowel") =
      some 'f' := by
  have hbuild : (parse_filters_build q).contains_character = some "a" := by
    unfold parse_filters_build containStage
    cases hcs : containsSearch (lowerList q) <;> simp only [hcs, h, if_true]
  refine ⟨hbuild, ?_, rfl, rfl⟩
  intro f hf
  rw [parse_ok_eq_build q f hf]
  exact hbuild

/-- C5 (witness): the theorem applied to the phrase `"first vowel"`. -/
theorem C5_first_vowel_witness :
    infixCheck ("first vowel".data) (lowerList "first vowel") = true ∧
    (parse_filters_build "first vowel").contains_character = some "a" :=
  ⟨rfl, (C5_first_vowel "first vowel" rfl).1⟩

/-- C6: the filter engine returns exactly the records for which every
present predicate holds (palindrome flag equality, `length ≥
min_length`, `length ≤ max_length`, exact word count, containment of
the required character in the raw value), i.e. it equals a single
`List.filter` by the spec's conjunction, and is therefore a stable
subsequence of its input preserving relative order; absent predicates
impose no constraint. -/
theorem C6_filter_engine (l : List StoredRecord) (f : Filters) :
    apply_filters l f = l.filter (spec_matches f) ∧
    (apply_filters l f).Sublist l := by
  have key : apply_filters l f = l.filter (spec_matches f) := by
    obtain ⟨ip, wc, mn, mx, cc⟩ := f
    rcases cc with _ | c
    · rcases ip with _ | b <;> rcases wc with _ | w <;> rcases mn with _ | a <;>
        rcases mx with _ | z <;>
        simp only [apply_filters, List.filter_filter] <;>
        first
        | (refine List.filter_congr fun s hs => ?_ ;
           simp [spec_matches, Bool.and_comm, Bool.and_left_comm, Bool.and_assoc])
        | (symm ; rw [List.filter_eq_self] ; intro s hs ; simp [spec_matches])
    · by_cases hc : c.isEmpty
      · rcases ip with _ | b <;> rcases wc with _ | w <;> rcases mn with _ | a <;>
          rcases mx with _ | z <;>
          simp only [apply_filters, List.filter_filter, hc, if_true] <;>
          first
          | (refine List.filter_congr fun s hs => ?_ ;
             simp [spec_matches, isEmpty_data_nil c hc, infixCheck_nil_needle,
               Bool.and_comm, Bool.and_left_comm, Bool.and_assoc])
          | (symm ; rw [List.filter_eq_self] ; intro s hs ;
             simp [spec_matches, isEmpty_data_nil c hc, infixCheck_nil_needle])
      · have hc' : c.isEmpty = false := by simpa using hc
        rcases ip with _ | b <;> rcases wc with _ | w <;> rcases mn with _ | a <;>
          rcases mx with _ | z <;>
          simp only [apply_filters, List.filter_filter, hc', Bool.false_eq_true, if_false] <;>
          (refine List.filter_congr fun s hs => ?_ ;
           simp [spec_matches, Bool.and_comm, Bool.and_left_comm, Bool.and_assoc])
  exact ⟨key, key ▸ List.filter_sublist l⟩

/-- C7: `is_palindrome` is true iff the lower-cased string equals its
own reversal — case-insensitive, but not whitespace- or
punctuation-insensitive (witness `"race car"`); `"Racecar"` is a
palindrome, `"hello"` is not, and the empty string is. -/
theorem C7_palindrome (sha256hex : String → String) (s : String) :
    ((analyze_string sha256hex s).is_palindrome = true ↔
      lowerList s = (lowerList s).reverse) ∧
    (analyze_string sha256hex "Racecar").is_palindrome = true ∧
    (analyze_string sha256hex "hello").is_palindrome = false ∧
    (analyze_string sha256hex "").is_palindrome = true ∧
    (analyze_string sha256hex "race car").is_palindrome = false := by
  refine ⟨?_, rfl, rfl, rfl, rfl⟩
  simp [analyze_string, lowerList]

/-- C8: the character frequency map has an entry for exactly the
distinct characters occurring in the string (each exactly once), and
its counts sum to the string's `length`. -/
theorem C8_frequency (sha256hex : String → String) (s : String) :
    (∀ c : Char,
      c ∈ (analyze_string sha256hex s).character_frequency_map.map Prod.fst ↔ c ∈ s.data) ∧
    ((analyze_string sha256hex s).character_frequency_map.map Prod.fst).Nodup ∧
    ((analyze_string sha256hex s).character_frequency_map.map Prod.snd).sum =
      (analyze_string sha256hex s).length := by
  refine ⟨?_, ?_, ?_⟩
  · intro c
    simp [analyze_string, List.mem_dedup]
  · simp only [analyze_string, List.map_map]
    have h : (Prod.fst ∘ fun c => (c, s.data.count c)) = id := rfl
    rw [h, List.map_id]
    exact List.nodup_dedup _
  · simp only [analyze_string, List.map_map]
    have h : (Prod.snd ∘ fun c => (c, s.data.count c)) = fun c => s.data.count c := rfl
    rw [h]
    exact List.sum_map_count_dedup_eq_length s.data

/-- C9: `create_string` fails with the 409 duplicate error exactly when
the value's content hash is already a key of the store, and then leaves
the store completely unchanged; otherwise it appends exactly one new
record keyed by the content hash and returns it; consequently creating
the same string twice always yields the duplicate error on the second
attempt, again leaving the store unchanged.  The digest function is an
arbitrary parameter (see `analyze_string`). -/
theorem C9_create_duplicate (sha256hex : String → String) (now : String)
    (store : List (String × StoredRecord)) (value : String) :
    ((store.map Prod.fst).contains (sha256hex value) = true →
      create_string sha256hex now store value =
        (.error ⟨409, "String already exists in the system"⟩, store)) ∧
    ((store.map Prod.fst).contains (sha256hex value) = false →
      create_string sha256hex now store value =
        (.ok (mkStored sha256hex now value),
          store ++ [(sha256hex value, mkStored sha256hex now value)])) ∧
    (∀ (now2 : String) (r : StoredRecord) (store2 : List (String × StoredRecord)),
      create_string sha256hex now store value = (.ok r, store2) →
      create_string sha256hex now2 store2 value =
        (.error ⟨409, "String already exists in the system"⟩, store2)) := by
  have h0 : (analyze_string sha256hex value).sha256_hash = sha256hex value := rfl
  have hdup : ∀ (st : List (String × StoredRecord)) (nw : String),
      (st.map Prod.fst).contains (sha256hex value) = true →
      create_string sha256hex nw st value =
        (.error ⟨409, "String already exists in the system"⟩, st) := by
    intro st nw hmem
    simp only [create_string, h0, hmem, if_true]
  have hok : ∀ nw : String, (store.map Prod.fst).contains (sha256hex value) = false →
      create_string sha256hex nw store value =
        (.ok (mkStored sha256hex nw value),
          store ++ [(sha256hex value, mkStored sha256hex nw value)]) := by
    intro nw hmem
    simp only [create_string, mkStored, h0, hmem, Bool.false_eq_true, if_false]
  refine ⟨hdup store now, hok now, ?_⟩
  intro now2 r store2 h
  by_cases hc : (store.map Prod.fst).contains (sha256hex value) = true
  · rw [hdup store now hc] at h
    exact absurd h (by simp)
  · have hc' : (store.map Prod.fst).contains (sha256hex value) = false := by simpa using hc
    rw [hok now hc'] at h
    injection h with h1 h2
    rw [← h2]
    apply hdup
    simp

/-- C9 (witness): with the identity digest, creating `"ab"` in the empty
store succeeds and appends the record; creating it again on the
resulting store yields the 409 duplicate error and leaves that store
unchanged. -/
theorem C9_create_duplicate_witness :
    ((([] : List (String × StoredRecord)).map Prod.fst).contains
        ((fun s => s) "ab") = false ∧
      create_string (fun s => s) "t" [] "ab" =
        (.ok (mkStored (fun s => s) "t" "ab"),
          [("ab", mkStored (fun s => s) "t" "ab")])) ∧
    create_string (fun s => s) "u" [("ab", mkStored (fun s => s) "t" "ab")] "ab" =
      (.error ⟨409, "String already exists in the system"⟩,
        [("ab", mkStored (fun s => s) "t" "ab")]) :=
  ⟨⟨rfl, (C9_create_duplicate (fun s => s) "t" [] "ab").2.1 rfl⟩,
    (C9_create_duplicate (fun s => s) "t" [] "ab").2.2 "u"
      (mkStored (fun s => s) "t" "ab") [("ab", mkStored (fun s => s) "t" "ab")]
      ((C9_create_duplicate (fun s => s) "t" [] "ab").2.1 rfl)⟩

/-- C10 (counterexample): the claim says that whenever (the lower-cased)
`contain`/`contains`/`containing` is followed by a space and a word
beginning with a lowercase letter, `contains_character` becomes that
word's first letter.  In `"contains the letter z"` the word after the
space is `"the"`, so the claim demands `'t'`; the code skips the
optional `the `/`letter ` markers and captures `'z'`. -/
theorem C10_counterexample :
    parse_natural_language_query "contains the letter z" =
      .ok ⟨none, none, none, none, some "z"⟩ ∧
    isSubstr "contains the" "contains the letter z" = true ∧
    some "z" ≠ some "t" := ⟨rfl, rfl, by decide⟩

/-- C10 (amended): whenever the rule-4 regular expression captures a
letter `c` from the lower-cased phrase — after `contain(s|ing)` and a
space it skips an optional `the `, an optional `letter `/`character `
marker and an optional quote, backtracking over each skip when no
lowercase letter follows it, and captures the first lowercase letter —
and the phrase does not also contain `first vowel` (whose rule runs
later and overwrites the field), the interpreter sets
`contains_character` to `c`; so `"strings containing multiple words"`
yields `'m'` (no marker, no quoting, no intended single-letter target)
and `"contains the 9"` backtracks over `the ` and yields `'t'`. -/
theorem C10_amended (q : String) :
    (∀ c : Char, containsSearch (lowerList q) = some c →
      infixCheck ("first vowel".data) (lowerList q) = false →
      (parse_filters_build q).contains_character = some (String.singleton c)) ∧
    parse_natural_language_query "strings containing multiple words" =
      .ok ⟨none, none, none, none, some "m"⟩ ∧
    parse_natural_language_query "contains the 9" =
      .ok ⟨none, none, none, none, some "t"⟩ := by
  refine ⟨?_, rfl, rfl⟩
  intro c hc hv
  unfold parse_filters_build containStage
  simp only [hc, hv, Bool.false_eq_true, if_false]

/-- C10 (witness): the amended theorem applied to `"containing w"`. -/
theorem C10_amended_witness :
    containsSearch (lowerList "containing w") = some 'w' ∧
    (parse_filters_build "containing w").contains_character =
      some (String.singleton 'w') :=
  ⟨rfl, (C10_amended "containing w").1 'w' rfl rfl⟩

end StringAnalyzer
